import Mathlib

/-!
Verification of the anomaly-detection engine of the energy-data platform.

The embedding models the engine of `backend/app/services/anomaly_detection.py`
together with the two endpoint operations that mutate anomaly state
(`reset_anomalies` in `backend/app/api/v1/endpoints/analytics.py` and
`update_anomaly_status` in `backend/app/api/v1/endpoints/anomaly_status.py`).

Modelling conventions:
- the database is a list of rows; SQLAlchemy `query(...).filter(...).all()`
  becomes `List.filter`, `order_by(timestamp)` becomes a stable sort by
  timestamp, `count()` becomes `List.length` of the filtered list;
- float values are modelled exactly by `ℚ`; statistics that need a square
  root (`np.std`) live in `ℝ`;
- `datetime.utcnow()` is an explicit parameter `now : ℤ` (timestamps are in
  hours, so `timedelta(days=d)` is `24 * d` and `timedelta(hours=h)` is `h`);
- a raised `ValueError` / HTTP error becomes `Option.none`; state-mutating
  operations take the database and return the new database, so a raised
  error leaves the caller's state untouched by construction.
-/

/-- Row of the `consumption_readings` table (`backend/app/models/consumption.py`):
id, meter_id, timestamp, value_kwh, plus the three anomaly fields mutated by
the engine. -/
structure ConsumptionReading where
  id : ℕ
  meter_id : ℕ
  timestamp : ℤ
  value_kwh : ℚ
  is_anomaly : Bool
  anomaly_score : Option ℝ
  anomaly_status : String

/-- The store of readings. -/
abbrev DB := List ConsumptionReading

/-- A freshly ingested reading, with the column defaults of the model:
`is_anomaly = False`, `anomaly_score = NULL`, `anomaly_status = "pending"`. -/
def mkReading (id meter : ℕ) (timestamp : ℤ) (value_kwh : ℚ) : ConsumptionReading :=
  { id := id, meter_id := meter, timestamp := timestamp, value_kwh := value_kwh,
    is_anomaly := false, anomaly_score := none, anomaly_status := "pending" }

/-- `np.mean` (0 on the empty list, as `0 / 0 = 0` in `ℚ`). -/
def mean (l : List ℚ) : ℚ := l.sum / l.length

/-- Population variance, the square of `np.std` (numpy uses `ddof = 0`). -/
def pvariance (l : List ℚ) : ℚ := ((l.map (fun v => (v - mean l) ^ 2)).sum) / l.length

/-- `np.std`: the population standard deviation. -/
noncomputable def pstd (l : List ℚ) : ℝ := Real.sqrt ((pvariance l : ℚ) : ℝ)

/-- `np.percentile(values, q)` with the default linear-interpolation method:
sort ascending, take `h = (n - 1) * q / 100`, and interpolate between the
entries at positions `⌊h⌋` and `⌊h⌋ + 1`. -/
def percentile (l : List ℚ) (q : ℚ) : ℚ :=
  let s := l.insertionSort (· ≤ ·)
  let h : ℚ := ((l.length - 1 : ℕ) : ℚ) * q / 100
  let i : ℕ := (⌊h⌋).toNat
  let g : ℚ := h - (i : ℚ)
  s.getD i 0 + g * (s.getD (i + 1) (s.getD i 0) - s.getD i 0)

/-- The query used by every engine operation: all readings of the meter with
`timestamp >= cutoff`. -/
def selectReadings (db : DB) (meter : ℕ) (cutoff : ℤ) : DB :=
  db.filter (fun r => decide (r.meter_id = meter ∧ cutoff ≤ r.timestamp))

/-- Values of the selected readings, `np.array([r.value_kwh for r in readings])`. -/
def valuesOf (db : DB) (meter : ℕ) (cutoff : ℤ) : List ℚ :=
  (selectReadings db meter cutoff).map (fun r => r.value_kwh)

/-- `order_by(ConsumptionReading.timestamp)`: stable ascending sort by timestamp. -/
def sortByTimestamp (l : DB) : DB :=
  l.insertionSort (fun a b => a.timestamp ≤ b.timestamp)

/-- `detect_anomalies_zscore`: needs at least 10 readings in the lookback
window; returns no anomalies when the standard deviation is 0; otherwise
flags the readings whose absolute Z-score exceeds the service threshold
(`settings.ANOMALY_DETECTION_THRESHOLD`, default 2.5). -/
noncomputable def detect_anomalies_zscore (threshold : ℝ) (db : DB) (meter : ℕ)
    (now : ℤ) (lookback_days : ℤ) : List (ℕ × ℝ) :=
  let readings := selectReadings db meter (now - 24 * lookback_days)
  if readings.length < 10 then []
  else
    let values := readings.map (fun r => r.value_kwh)
    let avg := mean values
    let std := pstd values
    if std = 0 then []
    else
      readings.filterMap (fun r =>
        let z := |(r.value_kwh : ℝ) - (avg : ℝ)| / std
        if z > threshold then some (r.id, z) else none)

/-- `detect_anomalies_iqr`: needs at least 10 readings; flags readings whose
value falls strictly outside `[Q1 - 1.5 * IQR, Q3 + 1.5 * IQR]`, scoring the
normalized distance past the violated bound (0 when `IQR` is not positive). -/
def detect_anomalies_iqr (db : DB) (meter : ℕ) (now : ℤ) (lookback_days : ℤ) :
    List (ℕ × ℚ) :=
  let readings := selectReadings db meter (now - 24 * lookback_days)
  if readings.length < 10 then []
  else
    let values := readings.map (fun r => r.value_kwh)
    let q1 := percentile values 25
    let q3 := percentile values 75
    let iqr := q3 - q1
    let lower_bound := q1 - 1.5 * iqr
    let upper_bound := q3 + 1.5 * iqr
    readings.filterMap (fun r =>
      if r.value_kwh < lower_bound ∨ r.value_kwh > upper_bound then
        some (r.id,
          if r.value_kwh < lower_bound then
            (if iqr > 0 then (lower_bound - r.value_kwh) / iqr else 0)
          else
            (if iqr > 0 then (r.value_kwh - upper_bound) / iqr else 0))
      else none)

/-- `detect_anomalies_moving_average`: selects readings of the last
`2 * window_hours` hours ordered by ascending timestamp, needs at least
`window_hours` of them; each reading at position `i ≥ window_hours - 1` is
compared to the simple moving average of the `window_hours` values ending at
`i` (numpy valid-mode convolution with a uniform kernel) and to the standard
deviation of the trailing window `values[max(0, i - window_hours) .. i]`. -/
noncomputable def detect_anomalies_moving_average (db : DB) (meter : ℕ) (now : ℤ)
    (window_hours : ℕ) (threshold_multiplier : ℝ) : List (ℕ × ℝ) :=
  let readings := sortByTimestamp (selectReadings db meter (now - 2 * (window_hours : ℤ)))
  if readings.length < window_hours then []
  else
    let values := readings.map (fun r => r.value_kwh)
    readings.enum.filterMap (fun p =>
      if p.1 + 1 < window_hours then none
      else
        let expected := mean ((values.drop (p.1 + 1 - window_hours)).take window_hours)
        let deviation : ℝ := |(p.2.value_kwh : ℝ) - (expected : ℝ)|
        let sd := pstd ((values.drop (p.1 - window_hours)).take
          (p.1 + 1 - (p.1 - window_hours)))
        if deviation > threshold_multiplier * sd ∧ sd > 0 then
          some (p.2.id, deviation / sd)
        else none)

/-- Flag one reading: `reading.is_anomaly = True; reading.anomaly_score = score`. -/
def setAnomaly (r : ConsumptionReading) (score : ℝ) : ConsumptionReading :=
  { r with is_anomaly := true, anomaly_score := some score }

/-- One iteration of the update loop of `mark_anomalies`: fetch the reading by
primary key and flag it. -/
def applyStep (p : ℕ × ℝ) (r : ConsumptionReading) : ConsumptionReading :=
  if r.id = p.1 then setAnomaly r p.2 else r

/-- The whole update loop of `mark_anomalies`, over the detected
`(reading_id, score)` pairs. -/
def applyAnomalies (db : DB) (anomalies : List (ℕ × ℝ)) : DB :=
  anomalies.foldl (fun d p => d.map (applyStep p)) db

/-- Proof helper: the effect of the update loop on a single row. -/
def applyRead (anomalies : List (ℕ × ℝ)) (r : ConsumptionReading) : ConsumptionReading :=
  anomalies.foldl (fun s p => applyStep p s) r

/-- Proof helper: the score of the last anomaly entry matching a given id. -/
def lastScore : List (ℕ × ℝ) → ℕ → Option ℝ
  | [], _ => none
  | p :: t, i =>
    match lastScore t i with
    | some s => some s
    | none => if p.1 = i then some p.2 else none

/-- `mark_anomalies`: dispatch on the method name (raising, modelled as `none`,
for an unknown method before any read or write), run the detector with its
default parameters, flag every detected reading, and return the new state
together with the count of detected anomalies. -/
noncomputable def mark_anomalies (threshold : ℝ) (db : DB) (meter : ℕ)
    (method : String) (now : ℤ) : Option (DB × ℕ) :=
  if method = "zscore" then
    some (applyAnomalies db (detect_anomalies_zscore threshold db meter now 30),
      (detect_anomalies_zscore threshold db meter now 30).length)
  else if method = "iqr" then
    some (applyAnomalies db
        ((detect_anomalies_iqr db meter now 30).map (fun p => (p.1, (p.2 : ℝ)))),
      (detect_anomalies_iqr db meter now 30).length)
  else if method = "moving_average" then
    some (applyAnomalies db (detect_anomalies_moving_average db meter now 24 2),
      (detect_anomalies_moving_average db meter now 24 2).length)
  else none

/-- Return shape of `get_anomaly_summary`. -/
structure AnomalySummary where
  meter_id : ℕ
  period_days : ℤ
  total_readings : ℕ
  anomaly_count : ℕ
  anomaly_rate : ℚ

/-- `get_anomaly_summary`: counts of readings and of flagged readings of the
meter in the last `days` days, and their ratio (0 when there are no readings). -/
def get_anomaly_summary (db : DB) (meter : ℕ) (days : ℤ) (now : ℤ) : AnomalySummary :=
  let cutoff := now - 24 * days
  let total := (selectReadings db meter cutoff).length
  let cnt := (db.filter (fun r =>
    decide (r.meter_id = meter ∧ cutoff ≤ r.timestamp ∧ r.is_anomaly = true))).length
  { meter_id := meter, period_days := days, total_readings := total,
    anomaly_count := cnt,
    anomaly_rate := if total > 0 then (cnt : ℚ) / (total : ℚ) else 0 }

/-- One row of the bulk update of `reset_anomalies`: rows of the meter with
`is_anomaly = True` get `is_anomaly = False, anomaly_score = None`. -/
def clearStep (meter : ℕ) (r : ConsumptionReading) : ConsumptionReading :=
  if r.meter_id = meter ∧ r.is_anomaly = true then
    { r with is_anomaly := false, anomaly_score := none }
  else r

/-- `reset_anomalies` endpoint (the meter-existence 404 check is orthogonal to
the mutation and is not modelled): clear the anomaly flag and score of every
currently-anomalous reading of the meter. -/
def reset_anomalies (db : DB) (meter : ℕ) : DB := db.map (clearStep meter)

/-- `update_anomaly_status` endpoint: validate the status string, find the
reading, require it to be flagged, and set only `anomaly_status`; every error
path (modelled as `none`) happens before any write. -/
def update_anomaly_status (db : DB) (reading_id : ℕ) (status : String) : Option DB :=
  if status = "pending" ∨ status = "verified" ∨ status = "ignored" then
    match db.find? (fun r => decide (r.id = reading_id)) with
    | none => none
    | some r =>
      if r.is_anomaly = true then
        some (db.map (fun x =>
          if x.id = reading_id then { x with anomaly_status := status } else x))
      else none
  else none

/-- Data-model invariant of the spec: `anomaly_score` is non-null iff
`is_anomaly` is true. -/
def ReadingInv (r : ConsumptionReading) : Prop :=
  r.anomaly_score.isSome = true ↔ r.is_anomaly = true

instance decidableReadingInv (r : ConsumptionReading) : Decidable (ReadingInv r) :=
  inferInstanceAs (Decidable (r.anomaly_score.isSome = true ↔ r.is_anomaly = true))

/-- Ten readings with values `10 × 9, 200`: `Q1 = Q3 = 10`, so `IQR = 0`,
and the value 200 lies strictly above the collapsed bounds. -/
def dbIqrZero : DB :=
  [mkReading 1 1 0 10, mkReading 2 1 0 10, mkReading 3 1 0 10, mkReading 4 1 0 10,
   mkReading 5 1 0 10, mkReading 6 1 0 10, mkReading 7 1 0 10, mkReading 8 1 0 10,
   mkReading 9 1 0 10, mkReading 10 1 0 200]

/-- Ten readings with values `1..9, 100`: `Q1 = 13/4`, `Q3 = 31/4`,
`IQR = 9/2 > 0`, and only the value 100 falls outside the bounds. -/
def dbIqrPos : DB :=
  [mkReading 1 1 0 1, mkReading 2 1 0 2, mkReading 3 1 0 3, mkReading 4 1 0 4,
   mkReading 5 1 0 5, mkReading 6 1 0 6, mkReading 7 1 0 7, mkReading 8 1 0 8,
   mkReading 9 1 0 9, mkReading 10 1 0 100]

/-- Three readings: below the 10-reading minimum of zscore and iqr. -/
def dbShort : DB := [mkReading 1 1 0 5, mkReading 2 1 0 6, mkReading 3 1 0 7]

/-- A single already-flagged reading. -/
def dbFlagged : DB :=
  [{ mkReading 1 1 0 5 with is_anomaly := true, anomaly_score := some 1 }]

/-- Two readings of meter 1 (one flagged) and one reading of meter 2. -/
def dbSummary : DB :=
  [{ mkReading 1 1 0 5 with is_anomaly := true, anomaly_score := some 2 },
   mkReading 2 1 0 6, mkReading 3 2 0 7]

/-- Flagged readings on two meters plus a clean one. -/
def dbReset : DB :=
  [{ mkReading 1 1 0 5 with is_anomaly := true, anomaly_score := some 3 },
   mkReading 2 1 0 6,
   { mkReading 3 2 0 7 with is_anomaly := true, anomaly_score := some 4 }]

/-- A flagged reading whose status is about to be updated. -/
def dbStatus : DB := [{ mkReading 1 1 0 5 with is_anomaly := true }]

/-- The expected state after updating the status of `dbStatus`. -/
def dbStatusOut : DB :=
  [{ mkReading 1 1 0 5 with is_anomaly := true, anomaly_status := "verified" }]


/-! Additional named quantities following the wording of the spec. -/

/-- First quartile of the selected values. -/
def q1Of (db : DB) (m : ℕ) (cutoff : ℤ) : ℚ := percentile (valuesOf db m cutoff) 25

/-- Third quartile of the selected values. -/
def q3Of (db : DB) (m : ℕ) (cutoff : ℤ) : ℚ := percentile (valuesOf db m cutoff) 75

/-- Interquartile range of the selected values. -/
def iqrOf (db : DB) (m : ℕ) (cutoff : ℤ) : ℚ := q3Of db m cutoff - q1Of db m cutoff

/-- Lower IQR bound `Q1 - 1.5 * IQR`. -/
def lowerBoundOf (db : DB) (m : ℕ) (cutoff : ℤ) : ℚ :=
  q1Of db m cutoff - 1.5 * iqrOf db m cutoff

/-- Upper IQR bound `Q3 + 1.5 * IQR`. -/
def upperBoundOf (db : DB) (m : ℕ) (cutoff : ℤ) : ℚ :=
  q3Of db m cutoff + 1.5 * iqrOf db m cutoff

/-- Values seen by the moving-average detector: selected over the last
`2 * window_hours` hours and ordered by ascending timestamp. -/
def mavgValues (db : DB) (m : ℕ) (now : ℤ) (w : ℕ) : List ℚ :=
  (sortByTimestamp (selectReadings db m (now - 2 * (w : ℤ)))).map (fun r => r.value_kwh)

/-- The simple mean of the `w` values ending at position `i` of the ordered
selection. -/
def windowMeanAt (db : DB) (m : ℕ) (now : ℤ) (w : ℕ) (i : ℕ) : ℚ :=
  mean (((mavgValues db m now w).take (i + 1)).drop (i + 1 - w))

/-- The standard deviation of the trailing window ending at position `i`,
clipped at the start of the series. -/
noncomputable def trailingStdAt (db : DB) (m : ℕ) (now : ℤ) (w : ℕ) (i : ℕ) : ℝ :=
  pstd (((mavgValues db m now w).take (i + 1)).drop (i - w))


/-! Helper lemmas: the update loop of `mark_anomalies`. -/

theorem applyRead_nil (r : ConsumptionReading) : applyRead [] r = r := rfl

theorem applyRead_cons (p : ℕ × ℝ) (t : List (ℕ × ℝ)) (r : ConsumptionReading) :
    applyRead (p :: t) r = applyRead t (applyStep p r) := rfl

theorem applyAnomalies_eq_map (l : List (ℕ × ℝ)) :
    ∀ db : DB, applyAnomalies db l = db.map (applyRead l) := by
  induction l with
  | nil =>
    intro db
    have h : db.map (applyRead []) = db.map (fun r => r) :=
      List.map_congr_left (fun r _ => rfl)
    simp only [applyAnomalies, List.foldl_nil, h, List.map_id']
  | cons p t ih =>
    intro db
    calc applyAnomalies db (p :: t) = applyAnomalies (db.map (applyStep p)) t := rfl
      _ = (db.map (applyStep p)).map (applyRead t) := ih _
      _ = db.map (applyRead (p :: t)) := by rw [List.map_map]; rfl

theorem applyStep_id (p : ℕ × ℝ) (r : ConsumptionReading) : (applyStep p r).id = r.id := by
  unfold applyStep; split <;> rfl

theorem applyStep_meter_id (p : ℕ × ℝ) (r : ConsumptionReading) :
    (applyStep p r).meter_id = r.meter_id := by
  unfold applyStep; split <;> rfl

theorem applyStep_timestamp (p : ℕ × ℝ) (r : ConsumptionReading) :
    (applyStep p r).timestamp = r.timestamp := by
  unfold applyStep; split <;> rfl

theorem applyStep_value_kwh (p : ℕ × ℝ) (r : ConsumptionReading) :
    (applyStep p r).value_kwh = r.value_kwh := by
  unfold applyStep; split <;> rfl

theorem applyRead_id (l : List (ℕ × ℝ)) : ∀ r, (applyRead l r).id = r.id := by
  induction l with
  | nil => intro r; rfl
  | cons p t ih => intro r; rw [applyRead_cons, ih, applyStep_id]

theorem applyRead_meter_id (l : List (ℕ × ℝ)) : ∀ r, (applyRead l r).meter_id = r.meter_id := by
  induction l with
  | nil => intro r; rfl
  | cons p t ih => intro r; rw [applyRead_cons, ih, applyStep_meter_id]

theorem applyRead_timestamp (l : List (ℕ × ℝ)) : ∀ r, (applyRead l r).timestamp = r.timestamp := by
  induction l with
  | nil => intro r; rfl
  | cons p t ih => intro r; rw [applyRead_cons, ih, applyStep_timestamp]

theorem applyRead_value_kwh (l : List (ℕ × ℝ)) : ∀ r, (applyRead l r).value_kwh = r.value_kwh := by
  induction l with
  | nil => intro r; rfl
  | cons p t ih => intro r; rw [applyRead_cons, ih, applyStep_value_kwh]

theorem selectReadings_map_applyRead (db : DB) (l : List (ℕ × ℝ)) (m : ℕ) (c : ℤ) :
    selectReadings (db.map (applyRead l)) m c = (selectReadings db m c).map (applyRead l) := by
  unfold selectReadings
  rw [List.filter_map]
  congr 1
  apply List.filter_congr
  intro r _
  simp [Function.comp, applyRead_meter_id, applyRead_timestamp]

theorem map_value_applyRead (rs : DB) (l : List (ℕ × ℝ)) :
    (rs.map (applyRead l)).map (fun r => r.value_kwh) = rs.map (fun r => r.value_kwh) := by
  rw [List.map_map]
  exact List.map_congr_left (fun r _ => applyRead_value_kwh l r)

theorem orderedInsert_map_ts (f : ConsumptionReading → ConsumptionReading)
    (hf : ∀ r, (f r).timestamp = r.timestamp) (a : ConsumptionReading) :
    ∀ l : DB,
      (l.map f).orderedInsert (fun x y => x.timestamp ≤ y.timestamp) (f a)
        = (l.orderedInsert (fun x y => x.timestamp ≤ y.timestamp) a).map f := by
  intro l
  induction l with
  | nil => rfl
  | cons b t ih =>
    simp only [List.map_cons, List.orderedInsert, hf]
    by_cases h : a.timestamp ≤ b.timestamp
    · rw [if_pos h, if_pos h, List.map_cons, List.map_cons]
    · rw [if_neg h, if_neg h, List.map_cons, ih]

theorem sortByTimestamp_map (f : ConsumptionReading → ConsumptionReading)
    (hf : ∀ r, (f r).timestamp = r.timestamp) :
    ∀ l : DB, sortByTimestamp (l.map f) = (sortByTimestamp l).map f := by
  intro l
  induction l with
  | nil => rfl
  | cons a t ih =>
    simp only [List.map_cons, sortByTimestamp, List.insertionSort] at *
    rw [ih, orderedInsert_map_ts f hf a]

theorem applyRead_closed (l : List (ℕ × ℝ)) :
    ∀ r : ConsumptionReading,
      applyRead l r = match lastScore l r.id with
        | none => r
        | some s => setAnomaly r s := by
  induction l with
  | nil => intro r; rfl
  | cons p t ih =>
    intro r
    rw [applyRead_cons]
    by_cases h : r.id = p.1
    · have hstep : applyStep p r = setAnomaly r p.2 := by unfold applyStep; rw [if_pos h]
      rw [hstep, ih]
      have hid : (setAnomaly r p.2).id = r.id := rfl
      rw [hid]
      cases hls : lastScore t r.id with
      | none =>
        have : lastScore (p :: t) r.id = some p.2 := by
          unfold lastScore; rw [hls, if_pos h.symm]
        rw [this]
      | some s =>
        have : lastScore (p :: t) r.id = some s := by
          unfold lastScore; rw [hls]
        rw [this]
        rfl
    · have hstep : applyStep p r = r := by unfold applyStep; rw [if_neg h]
      rw [hstep, ih]
      cases hls : lastScore t r.id with
      | none =>
        have : lastScore (p :: t) r.id = none := by
          unfold lastScore
          rw [hls, if_neg (fun hc => h hc.symm)]
        rw [this]
      | some s =>
        have : lastScore (p :: t) r.id = some s := by
          unfold lastScore; rw [hls]
        rw [this]

theorem setAnomaly_setAnomaly (r : ConsumptionReading) (x y : ℝ) :
    setAnomaly (setAnomaly r x) y = setAnomaly r y := rfl

theorem applyRead_idem (l : List (ℕ × ℝ)) (r : ConsumptionReading) :
    applyRead l (applyRead l r) = applyRead l r := by
  have hid : (applyRead l r).id = r.id := applyRead_id l r
  rw [applyRead_closed l (applyRead l r), hid, applyRead_closed l r]
  cases hls : lastScore l r.id with
  | none => rfl
  | some s => exact setAnomaly_setAnomaly r s s

theorem applyAnomalies_idem (db : DB) (l : List (ℕ × ℝ)) :
    applyAnomalies (applyAnomalies db l) l = applyAnomalies db l := by
  rw [applyAnomalies_eq_map, applyAnomalies_eq_map, List.map_map]
  exact List.map_congr_left (fun r _ => applyRead_idem l r)

theorem applyRead_is_anomaly_mono (l : List (ℕ × ℝ)) (r : ConsumptionReading)
    (h : r.is_anomaly = true) : (applyRead l r).is_anomaly = true := by
  rw [applyRead_closed l r]
  cases lastScore l r.id with
  | none => exact h
  | some s => rfl

theorem applyRead_inv (l : List (ℕ × ℝ)) (r : ConsumptionReading)
    (h : ReadingInv r) : ReadingInv (applyRead l r) := by
  rw [applyRead_closed l r]
  cases lastScore l r.id with
  | none => exact h
  | some s => exact ⟨fun _ => rfl, fun _ => rfl⟩

/-! Helper lemmas: detection only reads id, meter, timestamp and value, so it
is unchanged by the flag updates performed by `mark_anomalies`. -/

theorem detect_zscore_applyAnomalies (t : ℝ) (db : DB) (l : List (ℕ × ℝ)) (m : ℕ)
    (now look : ℤ) :
    detect_anomalies_zscore t (applyAnomalies db l) m now look
      = detect_anomalies_zscore t db m now look := by
  rw [applyAnomalies_eq_map]
  simp only [detect_anomalies_zscore]
  rw [selectReadings_map_applyRead, List.length_map, map_value_applyRead]
  by_cases h10 : (selectReadings db m (now - 24 * look)).length < 10
  · rw [if_pos h10, if_pos h10]
  · rw [if_neg h10, if_neg h10]
    by_cases hs :
        pstd ((selectReadings db m (now - 24 * look)).map (fun r => r.value_kwh)) = 0
    · rw [if_pos hs, if_pos hs]
    · rw [if_neg hs, if_neg hs, List.filterMap_map]
      apply List.filterMap_congr
      intro r _
      simp only [Function.comp, applyRead_value_kwh, applyRead_id]

theorem detect_iqr_applyAnomalies (db : DB) (l : List (ℕ × ℝ)) (m : ℕ)
    (now look : ℤ) :
    detect_anomalies_iqr (applyAnomalies db l) m now look
      = detect_anomalies_iqr db m now look := by
  rw [applyAnomalies_eq_map]
  simp only [detect_anomalies_iqr]
  rw [selectReadings_map_applyRead, List.length_map, map_value_applyRead]
  by_cases h10 : (selectReadings db m (now - 24 * look)).length < 10
  · rw [if_pos h10, if_pos h10]
  · rw [if_neg h10, if_neg h10, List.filterMap_map]
    apply List.filterMap_congr
    intro r _
    simp only [Function.comp, applyRead_value_kwh, applyRead_id]

theorem detect_moving_average_applyAnomalies (db : DB) (l : List (ℕ × ℝ)) (m : ℕ)
    (now : ℤ) (w : ℕ) (mult : ℝ) :
    detect_anomalies_moving_average (applyAnomalies db l) m now w mult
      = detect_anomalies_moving_average db m now w mult := by
  rw [applyAnomalies_eq_map]
  simp only [detect_anomalies_moving_average]
  rw [selectReadings_map_applyRead,
    sortByTimestamp_map (applyRead l) (applyRead_timestamp l),
    List.length_map, map_value_applyRead]
  by_cases hw : (sortByTimestamp (selectReadings db m (now - 2 * (w : ℤ)))).length < w
  · rw [if_pos hw, if_pos hw]
  · rw [if_neg hw, if_neg hw, List.enum_map, List.filterMap_map]
    apply List.filterMap_congr
    intro p _
    simp only [Function.comp, Prod.map_fst, Prod.map_snd, id_eq,
      applyRead_value_kwh, applyRead_id]

theorem forall₂_map_self {R : ConsumptionReading → ConsumptionReading → Prop}
    (f : ConsumptionReading → ConsumptionReading) :
    ∀ l : DB, (∀ a ∈ l, R a (f a)) → List.Forall₂ R l (l.map f) := by
  intro l
  induction l with
  | nil => intro _; exact List.Forall₂.nil
  | cons a t ih =>
    intro h
    exact List.Forall₂.cons (h a (List.mem_cons_self a t))
      (ih (fun b hb => h b (List.mem_cons_of_mem a hb)))

theorem length_filter_le_of_imp {α : Type} (p q : α → Bool)
    (h : ∀ a, p a = true → q a = true) :
    ∀ l : List α, (l.filter p).length ≤ (l.filter q).length := by
  intro l
  induction l with
  | nil => exact Nat.le_refl 0
  | cons a t ih =>
    simp only [List.filter_cons]
    by_cases hp : p a = true
    · rw [if_pos hp, if_pos (h a hp)]
      simpa using Nat.succ_le_succ ih
    · rw [if_neg hp]
      by_cases hq : q a = true
      · rw [if_pos hq]
        exact Nat.le_succ_of_le ih
      · rw [if_neg hq]
        exact ih
/-! Claim theorems. -/

/-- C2: `detect` with method zscore returns the empty list when fewer than 10
readings are selected; the empty list when the population standard deviation
of the selected values is 0; and otherwise exactly the selected readings
whose absolute Z-score exceeds the threshold, each paired with that absolute
Z-score, which is at least the threshold for every flagged reading. -/
theorem zscore_characterization (t : ℝ) (db : DB) (m : ℕ) (now look : ℤ) :
    ((selectReadings db m (now - 24 * look)).length < 10 →
      detect_anomalies_zscore t db m now look = [])
    ∧ (pstd (valuesOf db m (now - 24 * look)) = 0 →
      detect_anomalies_zscore t db m now look = [])
    ∧ (10 ≤ (selectReadings db m (now - 24 * look)).length →
      pstd (valuesOf db m (now - 24 * look)) ≠ 0 →
      detect_anomalies_zscore t db m now look =
        (selectReadings db m (now - 24 * look)).filterMap (fun r =>
          if |(r.value_kwh : ℝ) - (mean (valuesOf db m (now - 24 * look)) : ℝ)| /
              pstd (valuesOf db m (now - 24 * look)) > t then
            some (r.id,
              |(r.value_kwh : ℝ) - (mean (valuesOf db m (now - 24 * look)) : ℝ)| /
                pstd (valuesOf db m (now - 24 * look)))
          else none))
    ∧ (∀ p ∈ detect_anomalies_zscore t db m now look, t ≤ p.2) := by
  refine ⟨?_, ?_, ?_, ?_⟩
  · intro h
    simp only [detect_anomalies_zscore]
    rw [if_pos h]
  · intro h
    simp only [valuesOf] at h
    simp only [detect_anomalies_zscore]
    by_cases h10 : (selectReadings db m (now - 24 * look)).length < 10
    · rw [if_pos h10]
    · rw [if_neg h10, if_pos h]
  · intro h10 hs
    simp only [valuesOf] at hs
    simp only [detect_anomalies_zscore, valuesOf]
    rw [if_neg (Nat.not_lt.mpr h10), if_neg hs]
  · intro p hp
    simp only [detect_anomalies_zscore] at hp
    by_cases h10 : (selectReadings db m (now - 24 * look)).length < 10
    · rw [if_pos h10] at hp
      exact absurd hp (List.not_mem_nil p)
    · rw [if_neg h10] at hp
      by_cases hs :
          pstd ((selectReadings db m (now - 24 * look)).map (fun r => r.value_kwh)) = 0
      · rw [if_pos hs] at hp
        exact absurd hp (List.not_mem_nil p)
      · rw [if_neg hs] at hp
        obtain ⟨r, _, hsome⟩ := List.mem_filterMap.1 hp
        by_cases hz :
            |(r.value_kwh : ℝ) -
                (mean ((selectReadings db m (now - 24 * look)).map
                  (fun r => r.value_kwh)) : ℝ)| /
              pstd ((selectReadings db m (now - 24 * look)).map
                (fun r => r.value_kwh)) > t
        · rw [if_pos hz] at hsome
          rw [← Option.some.inj hsome]
          exact le_of_lt hz
        · rw [if_neg hz] at hsome
          exact absurd hsome (by simp)

/-- Witness for C2 at a concrete three-reading store (fewer than 10 readings). -/
theorem zscore_characterization_witness :
    (selectReadings dbShort 1 (0 - 24 * 30)).length < 10 ∧
      detect_anomalies_zscore ((5 : ℝ)/2) dbShort 1 0 30 = [] :=
  ⟨by decide, (zscore_characterization ((5 : ℝ)/2) dbShort 1 0 30).1 (by decide)⟩

/-- C1 counterexample: a ten-reading window whose values are `10 × 9, 200` has
`IQR = 0`, yet `detect` with method iqr does NOT return the empty list — the
zero-IQR guard only zeroes the score, the out-of-bounds reading is still
appended to the anomaly list. -/
theorem iqr_zero_guard_counterexample :
    10 ≤ (selectReadings dbIqrZero 1 (0 - 24 * 30)).length
    ∧ iqrOf dbIqrZero 1 (0 - 24 * 30) = 0
    ∧ detect_anomalies_iqr dbIqrZero 1 0 30 ≠ [] := by
  refine ⟨by decide, of_decide_eq_true (by with_unfolding_all rfl), ?_⟩
  have h : detect_anomalies_iqr dbIqrZero 1 0 30 = [(10, 0)] := by
    with_unfolding_all rfl
  rw [h]
  simp

/-- C1 amended: with at least 10 selected readings and `IQR = 0`, `detect`
with method iqr flags exactly the readings whose value falls strictly outside
the collapsed bounds `[Q1, Q3]`, each with score 0; the zero-IQR guard zeroes
the score but does not suppress flagging. -/
theorem iqr_zero_iqr_characterization (db : DB) (m : ℕ) (now look : ℤ)
    (h10 : 10 ≤ (selectReadings db m (now - 24 * look)).length)
    (h0 : iqrOf db m (now - 24 * look) = 0) :
    detect_anomalies_iqr db m now look =
      (selectReadings db m (now - 24 * look)).filterMap (fun r =>
        if r.value_kwh < q1Of db m (now - 24 * look)
            ∨ r.value_kwh > q3Of db m (now - 24 * look) then
          some (r.id, 0)
        else none)
    ∧ ∀ p ∈ detect_anomalies_iqr db m now look, p.2 = 0 := by
  simp only [iqrOf, q3Of, q1Of, valuesOf] at h0
  have hmain : detect_anomalies_iqr db m now look =
      (selectReadings db m (now - 24 * look)).filterMap (fun r =>
        if r.value_kwh < q1Of db m (now - 24 * look)
            ∨ r.value_kwh > q3Of db m (now - 24 * look) then
          some (r.id, 0)
        else none) := by
    simp only [detect_anomalies_iqr, q1Of, q3Of, valuesOf]
    rw [if_neg (Nat.not_lt.mpr h10)]
    apply List.filterMap_congr
    intro r _
    rw [h0]
    norm_num
  refine ⟨hmain, ?_⟩
  intro p hp
  rw [hmain] at hp
  obtain ⟨r, _, hsome⟩ := List.mem_filterMap.1 hp
  by_cases hc : r.value_kwh < q1Of db m (now - 24 * look)
      ∨ r.value_kwh > q3Of db m (now - 24 * look)
  · rw [if_pos hc] at hsome
    rw [← Option.some.inj hsome]
  · rw [if_neg hc] at hsome
    exact absurd hsome (by simp)

/-- Witness for the amended C1 at the concrete ten-reading store. -/
theorem iqr_zero_iqr_witness :
    10 ≤ (selectReadings dbIqrZero 1 (0 - 24 * 30)).length ∧
      detect_anomalies_iqr dbIqrZero 1 0 30 = [(10, 0)] := by
  refine ⟨by decide, ?_⟩
  rw [(iqr_zero_iqr_characterization dbIqrZero 1 0 30 (by decide)
    (of_decide_eq_true (by with_unfolding_all rfl))).1]
  with_unfolding_all rfl

/-- C5: with at least 10 selected readings and `IQR > 0`, `detect` with method
iqr flags exactly the readings whose value falls strictly outside
`[Q1 - 1.5 * IQR, Q3 + 1.5 * IQR]`, scoring `(lower_bound - value) / IQR`
below the lower bound and `(value - upper_bound) / IQR` above the upper one. -/
theorem iqr_characterization (db : DB) (m : ℕ) (now look : ℤ)
    (h10 : 10 ≤ (selectReadings db m (now - 24 * look)).length)
    (hiqr : 0 < iqrOf db m (now - 24 * look)) :
    detect_anomalies_iqr db m now look =
      (selectReadings db m (now - 24 * look)).filterMap (fun r =>
        if r.value_kwh < lowerBoundOf db m (now - 24 * look) then
          some (r.id, (lowerBoundOf db m (now - 24 * look) - r.value_kwh)
            / iqrOf db m (now - 24 * look))
        else if r.value_kwh > upperBoundOf db m (now - 24 * look) then
          some (r.id, (r.value_kwh - upperBoundOf db m (now - 24 * look))
            / iqrOf db m (now - 24 * look))
        else none) := by
  simp only [iqrOf, q3Of, q1Of, valuesOf] at hiqr
  simp only [detect_anomalies_iqr, lowerBoundOf, upperBoundOf, iqrOf, q3Of, q1Of,
    valuesOf]
  rw [if_neg (Nat.not_lt.mpr h10)]
  apply List.filterMap_congr
  intro r _
  by_cases h1 : r.value_kwh <
      percentile ((selectReadings db m (now - 24 * look)).map (fun r => r.value_kwh)) 25
      - 1.5 * (percentile ((selectReadings db m (now - 24 * look)).map
          (fun r => r.value_kwh)) 75
        - percentile ((selectReadings db m (now - 24 * look)).map
          (fun r => r.value_kwh)) 25)
  · rw [if_pos (Or.inl h1), if_pos h1, if_pos hiqr, if_pos h1]
  · by_cases h2 : r.value_kwh >
        percentile ((selectReadings db m (now - 24 * look)).map (fun r => r.value_kwh)) 75
        + 1.5 * (percentile ((selectReadings db m (now - 24 * look)).map
            (fun r => r.value_kwh)) 75
          - percentile ((selectReadings db m (now - 24 * look)).map
            (fun r => r.value_kwh)) 25)
    · rw [if_pos (Or.inr h2), if_neg h1, if_pos hiqr, if_neg h1, if_pos h2]
    · rw [if_neg (fun hc => hc.elim h1 h2), if_neg h1, if_neg h2]

/-- Witness for C5 at a concrete ten-reading store with values `1..9, 100`:
only the reading with value 100 is flagged, with score 19. -/
theorem iqr_characterization_witness :
    (0 : ℚ) < iqrOf dbIqrPos 1 (0 - 24 * 30) ∧
      detect_anomalies_iqr dbIqrPos 1 0 30 = [(10, 19)] := by
  refine ⟨of_decide_eq_true (by with_unfolding_all rfl), ?_⟩
  rw [iqr_characterization dbIqrPos 1 0 30 (by decide)
    (of_decide_eq_true (by with_unfolding_all rfl))]
  with_unfolding_all rfl

/-- C6: `detect` with method moving_average, over the readings of the last
`2 * window_hours` hours ordered by ascending timestamp, returns the empty
list when fewer than `window_hours` readings exist; otherwise it never
evaluates the first `window_hours - 1` readings, and a reading at position
`i ≥ window_hours - 1` is flagged iff
`|value - moving_average| > multiplier * trailing_std` and `trailing_std > 0`,
where `moving_average` is the simple mean of the `window_hours` values ending
at `i` and `trailing_std` the standard deviation of the trailing window
ending at `i` clipped at the start of the series; the score of a flagged
reading is `|value - moving_average| / trailing_std`. -/
theorem moving_average_characterization (db : DB) (m : ℕ) (now : ℤ) (w : ℕ)
    (mult : ℝ) :
    ((sortByTimestamp (selectReadings db m (now - 2 * (w : ℤ)))).length < w →
      detect_anomalies_moving_average db m now w mult = [])
    ∧ (w ≤ (sortByTimestamp (selectReadings db m (now - 2 * (w : ℤ)))).length →
      detect_anomalies_moving_average db m now w mult =
        (sortByTimestamp (selectReadings db m (now - 2 * (w : ℤ)))).enum.filterMap
          (fun p =>
            if p.1 + 1 < w then none
            else if |(p.2.value_kwh : ℝ) - (windowMeanAt db m now w p.1 : ℝ)|
                  > mult * trailingStdAt db m now w p.1
                ∧ trailingStdAt db m now w p.1 > 0 then
              some (p.2.id,
                |(p.2.value_kwh : ℝ) - (windowMeanAt db m now w p.1 : ℝ)|
                  / trailingStdAt db m now w p.1)
            else none)) := by
  constructor
  · intro h
    simp only [detect_anomalies_moving_average]
    rw [if_pos h]
  · intro hw
    simp only [detect_anomalies_moving_average]
    rw [if_neg (Nat.not_lt.mpr hw)]
    apply List.filterMap_congr
    intro p _
    by_cases hg : p.1 + 1 < w
    · rw [if_pos hg, if_pos hg]
    · rw [if_neg hg, if_neg hg]
      have hww : w ≤ p.1 + 1 := Nat.not_lt.1 hg
      have hmean : ((mavgValues db m now w).take (p.1 + 1)).drop (p.1 + 1 - w)
          = ((mavgValues db m now w).drop (p.1 + 1 - w)).take w := by
        rw [List.drop_take, Nat.sub_sub_self hww]
      have hstd : ((mavgValues db m now w).take (p.1 + 1)).drop (p.1 - w)
          = ((mavgValues db m now w).drop (p.1 - w)).take (p.1 + 1 - (p.1 - w)) :=
        List.drop_take _ _ _
      simp only [mavgValues] at hmean hstd
      simp only [windowMeanAt, trailingStdAt, mavgValues, hmean, hstd]

/-- Witness for C6 at the empty store with the default parameters. -/
theorem moving_average_witness :
    (sortByTimestamp (selectReadings [] 1 (0 - 2 * (24 : ℤ)))).length < 24 ∧
      detect_anomalies_moving_average [] 1 0 24 2 = [] :=
  ⟨by decide, (moving_average_characterization [] 1 0 24 2).1 (by decide)⟩

/-- C4: for every method string other than "zscore", "iqr" and
"moving_average", `mark` raises the unknown-method error (modelled as `none`)
without producing any new state, so no reading is mutated. -/
theorem mark_unknown_method (t : ℝ) (db : DB) (m : ℕ) (method : String) (now : ℤ)
    (h1 : method ≠ "zscore") (h2 : method ≠ "iqr") (h3 : method ≠ "moving_average") :
    mark_anomalies t db m method now = none := by
  unfold mark_anomalies
  rw [if_neg h1, if_neg h2, if_neg h3]

/-- Witness for C4 at the unknown method "bogus". -/
theorem mark_unknown_method_witness :
    ("bogus" : String) ≠ "zscore" ∧ mark_anomalies ((5 : ℝ)/2) [] 1 "bogus" 0 = none :=
  ⟨by decide, mark_unknown_method ((5 : ℝ)/2) [] 1 "bogus" 0
    (by decide) (by decide) (by decide)⟩

/-- C3: `mark` is idempotent — when a call with a recognized method returns the
new state `db₁` and count `c`, a second call with the same method on `db₁`
(same underlying data) returns the same state and the same count, so the set
of flagged readings and their scores are identical. -/
theorem mark_idempotent (t : ℝ) (db : DB) (m : ℕ) (method : String) (now : ℤ)
    (db₁ : DB) (c : ℕ) (h : mark_anomalies t db m method now = some (db₁, c)) :
    mark_anomalies t db₁ m method now = some (db₁, c) := by
  unfold mark_anomalies at h ⊢
  by_cases hz : method = "zscore"
  · rw [if_pos hz] at h ⊢
    have hpair := Option.some.inj h
    have hdb : applyAnomalies db (detect_anomalies_zscore t db m now 30) = db₁ :=
      congrArg Prod.fst hpair
    have hc : (detect_anomalies_zscore t db m now 30).length = c :=
      congrArg Prod.snd hpair
    rw [← hdb, detect_zscore_applyAnomalies, applyAnomalies_idem, hc]
  · rw [if_neg hz] at h ⊢
    by_cases hi : method = "iqr"
    · rw [if_pos hi] at h ⊢
      have hpair := Option.some.inj h
      have hdb : applyAnomalies db
          ((detect_anomalies_iqr db m now 30).map (fun p => (p.1, (p.2 : ℝ)))) = db₁ :=
        congrArg Prod.fst hpair
      have hc : (detect_anomalies_iqr db m now 30).length = c :=
        congrArg Prod.snd hpair
      rw [← hdb, detect_iqr_applyAnomalies, applyAnomalies_idem, hc]
    · rw [if_neg hi] at h ⊢
      by_cases hm : method = "moving_average"
      · rw [if_pos hm] at h ⊢
        have hpair := Option.some.inj h
        have hdb : applyAnomalies db
            (detect_anomalies_moving_average db m now 24 2) = db₁ :=
          congrArg Prod.fst hpair
        have hc : (detect_anomalies_moving_average db m now 24 2).length = c :=
          congrArg Prod.snd hpair
        rw [← hdb, detect_moving_average_applyAnomalies, applyAnomalies_idem, hc]
      · rw [if_neg hm] at h
        exact absurd h (by simp)

/-- Witness for C3: marking the empty store with zscore yields the same state
and count again. -/
theorem mark_idempotent_witness :
    mark_anomalies ((5 : ℝ)/2) [] 1 "zscore" 0 = some ([], 0) :=
  mark_idempotent ((5 : ℝ)/2) [] 1 "zscore" 0 [] 0 rfl

/-- C10: `mark` never clears an anomaly flag — every reading flagged before a
successful `mark` call is still flagged afterwards, position by position. -/
theorem mark_never_clears (t : ℝ) (db : DB) (m : ℕ) (method : String) (now : ℤ)
    (db₁ : DB) (c : ℕ) (h : mark_anomalies t db m method now = some (db₁, c)) :
    List.Forall₂ (fun r s => r.is_anomaly = true → s.is_anomaly = true) db db₁ := by
  have key : ∀ L : List (ℕ × ℝ),
      List.Forall₂ (fun r s => r.is_anomaly = true → s.is_anomaly = true) db
        (applyAnomalies db L) := by
    intro L
    rw [applyAnomalies_eq_map]
    exact forall₂_map_self _ db (fun a _ ha => applyRead_is_anomaly_mono L a ha)
  unfold mark_anomalies at h
  by_cases hz : method = "zscore"
  · rw [if_pos hz] at h
    have hdb : applyAnomalies db (detect_anomalies_zscore t db m now 30) = db₁ :=
      congrArg Prod.fst (Option.some.inj h)
    rw [← hdb]
    exact key _
  · rw [if_neg hz] at h
    by_cases hi : method = "iqr"
    · rw [if_pos hi] at h
      have hdb : applyAnomalies db
          ((detect_anomalies_iqr db m now 30).map (fun p => (p.1, (p.2 : ℝ)))) = db₁ :=
        congrArg Prod.fst (Option.some.inj h)
      rw [← hdb]
      exact key _
    · rw [if_neg hi] at h
      by_cases hm : method = "moving_average"
      · rw [if_pos hm] at h
        have hdb : applyAnomalies db
            (detect_anomalies_moving_average db m now 24 2) = db₁ :=
          congrArg Prod.fst (Option.some.inj h)
        rw [← hdb]
        exact key _
      · rw [if_neg hm] at h
        exact absurd h (by simp)

/-- Witness for C10: the already-flagged store keeps its flag through `mark`. -/
theorem mark_never_clears_witness :
    List.Forall₂ (fun r s => r.is_anomaly = true → s.is_anomaly = true)
      dbFlagged dbFlagged :=
  mark_never_clears ((5 : ℝ)/2) dbFlagged 1 "zscore" 0 dbFlagged 0 rfl

/-- C7: `summary` always reports a rate between 0 and 1; the rate is 0 when
there are no readings in the window (not an error), and equals
`anomaly_count / total_readings` when there are. -/
theorem summary_characterization (db : DB) (m : ℕ) (days now : ℤ) :
    0 ≤ (get_anomaly_summary db m days now).anomaly_rate
    ∧ (get_anomaly_summary db m days now).anomaly_rate ≤ 1
    ∧ ((get_anomaly_summary db m days now).total_readings = 0 →
        (get_anomaly_summary db m days now).anomaly_rate = 0)
    ∧ (0 < (get_anomaly_summary db m days now).total_readings →
        (get_anomaly_summary db m days now).anomaly_rate
          = ((get_anomaly_summary db m days now).anomaly_count : ℚ)
            / ((get_anomaly_summary db m days now).total_readings : ℚ)) := by
  have hcnt : (db.filter (fun r =>
        decide (r.meter_id = m ∧ now - 24 * days ≤ r.timestamp
          ∧ r.is_anomaly = true))).length
      ≤ (selectReadings db m (now - 24 * days)).length := by
    unfold selectReadings
    apply length_filter_le_of_imp
    intro a ha
    simp only [decide_eq_true_eq] at ha ⊢
    exact ⟨ha.1, ha.2.1⟩
  simp only [get_anomaly_summary]
  refine ⟨?_, ?_, ?_, ?_⟩
  · by_cases h : (selectReadings db m (now - 24 * days)).length > 0
    · rw [if_pos h]
      exact div_nonneg (Nat.cast_nonneg _) (Nat.cast_nonneg _)
    · rw [if_neg h]
  · by_cases h : (selectReadings db m (now - 24 * days)).length > 0
    · rw [if_pos h]
      rw [div_le_one (by exact_mod_cast h)]
      exact_mod_cast hcnt
    · rw [if_neg h]
      exact zero_le_one
  · intro h0
    rw [if_neg (by omega)]
  · intro hpos
    rw [if_pos hpos]

/-- Witness for C7 at a concrete store with two readings of the meter in the
window, one of them flagged. -/
theorem summary_characterization_witness :
    0 < (get_anomaly_summary dbSummary 1 7 0).total_readings ∧
      (get_anomaly_summary dbSummary 1 7 0).anomaly_rate
        = ((get_anomaly_summary dbSummary 1 7 0).anomaly_count : ℚ)
          / ((get_anomaly_summary dbSummary 1 7 0).total_readings : ℚ) :=
  ⟨by decide, (summary_characterization dbSummary 1 7 0).2.2.2 (by decide)⟩

/-- C8: `reset` clears flag and score of every currently-anomalous reading of
the meter, never changes a value or timestamp, leaves readings of other
meters untouched, is idempotent, and a summary taken after it reports zero
anomalies for that meter. -/
theorem reset_characterization (db : DB) (m : ℕ) (days now : ℤ) :
    List.Forall₂ (fun r s =>
        s.value_kwh = r.value_kwh ∧ s.timestamp = r.timestamp
        ∧ (r.meter_id ≠ m → s = r)
        ∧ (r.meter_id = m → r.is_anomaly = true →
            s.is_anomaly = false ∧ s.anomaly_score = none))
      db (reset_anomalies db m)
    ∧ reset_anomalies (reset_anomalies db m) m = reset_anomalies db m
    ∧ (get_anomaly_summary (reset_anomalies db m) m days now).anomaly_count = 0 := by
  refine ⟨?_, ?_, ?_⟩
  · unfold reset_anomalies
    apply forall₂_map_self
    intro a _
    by_cases hc : a.meter_id = m ∧ a.is_anomaly = true
    · unfold clearStep
      rw [if_pos hc]
      exact ⟨rfl, rfl, fun hne => absurd hc.1 hne, fun _ _ => ⟨rfl, rfl⟩⟩
    · unfold clearStep
      rw [if_neg hc]
      exact ⟨rfl, rfl, fun _ => rfl, fun h1 h2 => absurd ⟨h1, h2⟩ hc⟩
  · unfold reset_anomalies
    rw [List.map_map]
    apply List.map_congr_left
    intro a _
    show clearStep m (clearStep m a) = clearStep m a
    by_cases hc : a.meter_id = m ∧ a.is_anomaly = true
    · have h1 : clearStep m a = { a with is_anomaly := false, anomaly_score := none } := by
        unfold clearStep
        rw [if_pos hc]
      rw [h1]
      unfold clearStep
      rw [if_neg (by simp)]
    · have h1 : clearStep m a = a := by
        unfold clearStep
        rw [if_neg hc]
      rw [h1]
      exact h1
  · simp only [get_anomaly_summary]
    unfold reset_anomalies
    rw [List.filter_map, List.length_map]
    have hnil : db.filter ((fun r =>
        decide (r.meter_id = m ∧ now - 24 * days ≤ r.timestamp
          ∧ r.is_anomaly = true)) ∘ clearStep m) = [] := by
      rw [List.filter_eq_nil_iff]
      intro a _
      simp only [Function.comp]
      by_cases hc : a.meter_id = m ∧ a.is_anomaly = true
      · simp [clearStep, hc]
      · simp only [clearStep, if_neg hc, decide_eq_true_eq]
        intro h
        exact hc ⟨h.1, h.2.2⟩
    rw [hnil]
    rfl

/-- Witness for C8 at a concrete store with flagged readings on two meters. -/
theorem reset_characterization_witness :
    (get_anomaly_summary (reset_anomalies dbReset 1) 1 7 0).anomaly_count = 0 :=
  (reset_characterization dbReset 1 7 0).2.2

/-- C9: the invariant "anomaly_score is non-null iff is_anomaly" holds of a
freshly ingested reading (column defaults) and is preserved by every engine
operation: a successful `mark` sets flag and score together on each flagged
reading, `reset` clears both together, and the status update modifies neither
field (position by position). -/
theorem anomaly_score_invariant :
    (∀ id meter : ℕ, ∀ ts : ℤ, ∀ v : ℚ, ReadingInv (mkReading id meter ts v))
    ∧ (∀ (t : ℝ) (db : DB) (m : ℕ) (method : String) (now : ℤ) (db₁ : DB) (c : ℕ),
        (∀ r ∈ db, ReadingInv r) → mark_anomalies t db m method now = some (db₁, c) →
        ∀ r ∈ db₁, ReadingInv r)
    ∧ (∀ (db : DB) (m : ℕ), (∀ r ∈ db, ReadingInv r) →
        ∀ r ∈ reset_anomalies db m, ReadingInv r)
    ∧ (∀ (db : DB) (i : ℕ) (st : String) (db₁ : DB),
        update_anomaly_status db i st = some db₁ →
        List.Forall₂ (fun r s => s.is_anomaly = r.is_anomaly
          ∧ s.anomaly_score = r.anomaly_score) db db₁) := by
  refine ⟨?_, ?_, ?_, ?_⟩
  · intro id meter ts v
    simp [ReadingInv, mkReading]
  · intro t db m method now db₁ c hInv h
    have key : ∀ L : List (ℕ × ℝ), ∀ r ∈ applyAnomalies db L, ReadingInv r := by
      intro L r hr
      rw [applyAnomalies_eq_map] at hr
      obtain ⟨a, ha, rfl⟩ := List.mem_map.1 hr
      exact applyRead_inv L a (hInv a ha)
    unfold mark_anomalies at h
    by_cases hz : method = "zscore"
    · rw [if_pos hz] at h
      have hdb : applyAnomalies db (detect_anomalies_zscore t db m now 30) = db₁ :=
        congrArg Prod.fst (Option.some.inj h)
      rw [← hdb]
      exact key _
    · rw [if_neg hz] at h
      by_cases hi : method = "iqr"
      · rw [if_pos hi] at h
        have hdb : applyAnomalies db
            ((detect_anomalies_iqr db m now 30).map (fun p => (p.1, (p.2 : ℝ)))) = db₁ :=
          congrArg Prod.fst (Option.some.inj h)
        rw [← hdb]
        exact key _
      · rw [if_neg hi] at h
        by_cases hm : method = "moving_average"
        · rw [if_pos hm] at h
          have hdb : applyAnomalies db
              (detect_anomalies_moving_average db m now 24 2) = db₁ :=
            congrArg Prod.fst (Option.some.inj h)
          rw [← hdb]
          exact key _
        · rw [if_neg hm] at h
          exact absurd h (by simp)
  · intro db m hInv r hr
    unfold reset_anomalies at hr
    obtain ⟨a, ha, rfl⟩ := List.mem_map.1 hr
    unfold clearStep
    by_cases hc : a.meter_id = m ∧ a.is_anomaly = true
    · rw [if_pos hc]
      simp [ReadingInv]
    · rw [if_neg hc]
      exact hInv a ha
  · intro db i st db₁ h
    unfold update_anomaly_status at h
    split at h
    · split at h
      · exact absurd h (by simp)
      · split at h
        · rw [← Option.some.inj h]
          apply forall₂_map_self
          intro a _
          by_cases hid : a.id = i
          · rw [if_pos hid]
            exact ⟨rfl, rfl⟩
          · rw [if_neg hid]
            exact ⟨rfl, rfl⟩
        · exact absurd h (by simp)
    · exact absurd h (by simp)

/-- Witness for C9: the default-state reading satisfies the invariant, a
flagged reading surviving a `mark` run still satisfies it, a reading cleared
by `reset` satisfies it, and the status update keeps flag and score of the
concrete store. -/
theorem anomaly_score_invariant_witness :
    ReadingInv (mkReading 1 1 0 5)
    ∧ ReadingInv ({ mkReading 1 1 0 5 with is_anomaly := true, anomaly_score := some 1 })
    ∧ ReadingInv (clearStep 1
        ({ mkReading 1 1 0 5 with is_anomaly := true, anomaly_score := some 3 }))
    ∧ List.Forall₂ (fun r s => s.is_anomaly = r.is_anomaly
        ∧ s.anomaly_score = r.anomaly_score) dbStatus dbStatusOut := by
  refine ⟨anomaly_score_invariant.1 1 1 0 5, ?_, ?_, ?_⟩
  · exact anomaly_score_invariant.2.1 ((5 : ℝ)/2) dbFlagged 1 "zscore" 0 dbFlagged 0
      (by decide) rfl
      ({ mkReading 1 1 0 5 with is_anomaly := true, anomaly_score := some 1 })
      (List.mem_cons_self _ _)
  · exact anomaly_score_invariant.2.2.1 dbReset 1 (by decide)
      (clearStep 1 ({ mkReading 1 1 0 5 with is_anomaly := true, anomaly_score := some 3 }))
      (List.mem_cons_self _ _)
  · exact anomaly_score_invariant.2.2.2 dbStatus 1 "verified" dbStatusOut rfl
